import Mathlib

/-
  Verification of the residual-load scenario engine.

  The embedding follows the source files engine.py and metdesk_db.py.
  Tables (pandas DataFrames) are modelled as a list of rows, each row a
  UTC timestamp (an integer) together with a total valuation of columns;
  the list of columns actually present in the frame is tracked separately,
  exactly as a DataFrame tracks its column index.  Values are rationals:
  the numeric claims of the specification are stated in exact arithmetic.
-/

namespace ResidualLoad

/-- Column identifiers.  Each constructor corresponds to a pandas column
name of the source: consumption_mw; ens i to the zero-padded member column
of get_ensemble_forecasts; wind c and solar c to the prefixed
renames of get_renewable_ensembles; totalRen i to the total renewables
member column; residual i to the residual member column of
the engine; ensMean, ensStd, ensMin, ensMax and ensP p to the ensemble
statistics columns; oldMean, newMean, delta, deltaPct to the columns of
compute_forecast_delta; windDelta, solarDelta, residualDelta and
residualDeltaPct to the columns of compute_residual_load_delta.  The
zero-padded numeric naming scheme of the source is injective, so member
indices stand in for the member column names. -/
inductive Col where
  | consumption_mw : Col
  | ens : ℕ → Col
  | wind : Col → Col
  | solar : Col → Col
  | totalRen : ℕ → Col
  | residual : ℕ → Col
  | ensMean : Col
  | ensStd : Col
  | ensMin : Col
  | ensMax : Col
  | ensP : ℕ → Col
  | oldMean : Col
  | newMean : Col
  | delta : Col
  | deltaPct : Col
  | windDelta : Col
  | solarDelta : Col
  | residualDelta : Col
  | residualDeltaPct : Col
deriving DecidableEq

/-- Dtype of the utc_datetime column: object for a freshly constructed
empty frame with named columns, datetimeUTC after pd.to_datetime with
utc=True (a timezone-aware instant). -/
inductive Dtype where
  | object : Dtype
  | float64 : Dtype
  | datetimeUTC : Dtype
deriving DecidableEq

/-- A row: utc_datetime key and the valuation of the columns.  The
valuation is total; it is meaningful only on the columns listed in the
frame. -/
abbrev Row : Type := ℤ × (Col → ℚ)

/-- A wide DataFrame: the dtype of the utc_datetime column (none when the
frame has no utc_datetime column at all, as in pd.DataFrame()), the list
of value columns present, and the rows. -/
structure Frame where
  tsDtype : Option Dtype
  cols : List Col
  rows : List Row

/-- pd.DataFrame(): no columns, no rows. -/
def Frame.emptyDF : Frame := ⟨none, [], []⟩

/-- DataFrame.empty.  Every frame of this pipeline either has a
utc_datetime column when it has rows or is emptyDF, so testing the rows
suffices. -/
def Frame.isEmpty (f : Frame) : Bool := f.rows.isEmpty

/-- The utc_datetime column as a list. -/
def Frame.keys (f : Frame) : List ℤ := f.rows.map Prod.fst

/-- First row with the given timestamp, if any. -/
def lookupRow (rows : List Row) (t : ℤ) : Option (Col → ℚ) :=
  (rows.find? (fun r => r.1 = t)).map Prod.snd

/-- pandas merge on utc_datetime with how set to inner: for each left row,
in left order, every right row with an equal key; on a shared column the
left value wins (the pipelines here keep the two column sets disjoint). -/
def Frame.mergeInner (a b : Frame) : Frame :=
  ⟨a.tsDtype, a.cols ++ b.cols,
   a.rows.flatMap (fun ra =>
     (b.rows.filter (fun rb => rb.1 = ra.1)).map (fun rb =>
       (ra.1, fun c => if c ∈ a.cols then ra.2 c else rb.2 c)))⟩

/-- pandas merge on utc_datetime with how set to outer followed by
fillna(0): the union of the keys in ascending order (pandas sorts the key
for an outer merge), each side looked up by key and a missing side filled
with zero. -/
def Frame.mergeOuterFill (a b : Frame) : Frame :=
  ⟨a.tsDtype, a.cols ++ b.cols,
   (((a.keys ++ b.keys).dedup).insertionSort (· ≤ ·)).map (fun t =>
     (t, fun c =>
       if c ∈ a.cols then ((lookupRow a.rows t).map (fun v => v c)).getD 0
       else ((lookupRow b.rows t).map (fun v => v c)).getD 0))⟩

/-- DataFrame.add with fill_value 0 on utc_datetime-indexed frames:
alignment on the union of keys and of columns, a cell missing from one
operand taken as zero.  (pandas leaves a cell missing from both operands
as NaN; that can arise only when the operands have different column sets,
and the embedding uses zero there.) -/
def Frame.addFill (a b : Frame) : Frame :=
  ⟨a.tsDtype, (a.cols ++ b.cols).dedup,
   (((a.keys ++ b.keys).dedup).insertionSort (· ≤ ·)).map (fun t =>
     (t, fun c =>
       (if c ∈ a.cols then ((lookupRow a.rows t).map (fun v => v c)).getD 0 else 0) +
       (if c ∈ b.cols then ((lookupRow b.rows t).map (fun v => v c)).getD 0 else 0)))⟩

/-- Select one column of a frame under a new name, as in
df[["utc_datetime", src]] followed by a rename of src to target. -/
def Frame.selectAs (f : Frame) (src target : Col) : Frame :=
  ⟨f.tsDtype, [target],
   f.rows.map (fun r => (r.1, fun c => if c = target then r.2 src else 0))⟩

/-- Assign a constant column, as in result[name] = 0.0. -/
def Frame.withConstCol (f : Frame) (c0 : Col) (v : ℚ) : Frame :=
  ⟨f.tsDtype, f.cols ++ [c0],
   f.rows.map (fun r => (r.1, fun c => if c = c0 then v else r.2 c))⟩

/-- sort_values on utc_datetime (stable). -/
def Frame.sortRows (f : Frame) : Frame :=
  ⟨f.tsDtype, f.cols, f.rows.insertionSort (fun r s => r.1 ≤ s.1)⟩

/-- Row j of a frame, with a default outside the range. -/
def dRow (f : Frame) (j : ℕ) : Row := f.rows.getD j (0, fun _ => 0)

/-! ### Ensemble statistics (numpy nanmean, nanstd, nanmin, nanmax,
nanpercentile along the member axis).  Member values are rationals here,
so the nan-ignoring variants coincide with the plain ones. -/

/-- numpy nanmean of one row of member values. -/
def nmean (xs : List ℚ) : ℚ := xs.sum / xs.length

/-- Embeds the square of numpy nanstd (the population variance); the
source stores the square root, which is irrational in general, and no
claim concerns the ens_std column. -/
def nvar (xs : List ℚ) : ℚ := nmean (xs.map (fun x => (x - nmean xs) ^ 2))

/-- numpy nanmin, with 0 for the empty list (unreached: the statistics
columns exist only when at least one member matched). -/
def listMin : List ℚ → ℚ
  | [] => 0
  | x :: xs => xs.foldl min x

/-- numpy nanmax, same convention as listMin. -/
def listMax : List ℚ → ℚ
  | [] => 0
  | x :: xs => xs.foldl max x

/-- Linear interpolation at fractional index h into the sorted list s,
the rule of numpy percentile with linear interpolation:
s[floor h] + (h - floor h) * (s[ceil h] - s[floor h]). -/
def interp (s : List ℚ) (h : ℚ) : ℚ :=
  s.getD (Int.toNat ⌊h⌋) 0 +
    (h - (Int.toNat ⌊h⌋ : ℚ)) * (s.getD (Int.toNat ⌈h⌉) 0 - s.getD (Int.toNat ⌊h⌋) 0)

/-- numpy nanpercentile of one row of member values at level p, linear
interpolation at virtual index p * (n - 1) / 100 into the sorted values. -/
def quantile (xs : List ℚ) (p : ℕ) : ℚ :=
  if xs.isEmpty then 0
  else interp (xs.insertionSort (· ≤ ·)) ((p : ℚ) * ((xs.length : ℚ) - 1) / 100)

/-! ### The scenario engine (engine.py) -/

/-- The member indices whose total renewables column exists in the merged
table, from the loop for i in range(1, n_members + 1) of
_compute_residual_scenarios. -/
def memberList (nMembers : ℕ) (cols : List Col) : List ℕ :=
  (List.range' 1 nMembers).filter (fun i => Col.totalRen i ∈ cols)

/-- The residual member values of one merged row:
consumption_mw minus the total renewables of each matched member. -/
def residualVals (members : List ℕ) (v : Col → ℚ) : List ℚ :=
  members.map (fun i => v Col.consumption_mw - v (Col.totalRen i))

/-- The statistics columns appended when at least one member matched:
ens_mean, ens_std, ens_min, ens_max and ens_P0, ens_P5, ..., ens_P100. -/
def statCols : List Col :=
  [Col.ensMean, Col.ensStd, Col.ensMin, Col.ensMax] ++
    (List.range 21).map (fun k => Col.ensP (5 * k))

/-- Valuation of one result row of _compute_residual_scenarios. -/
def residualRowVal (members : List ℕ) (v : Col → ℚ) : Col → ℚ := fun c =>
  match c with
  | Col.residual i =>
      if i ∈ members then v Col.consumption_mw - v (Col.totalRen i) else 0
  | Col.ensMean => nmean (residualVals members v)
  | Col.ensStd => nvar (residualVals members v)
  | Col.ensMin => listMin (residualVals members v)
  | Col.ensMax => listMax (residualVals members v)
  | Col.ensP p => quantile (residualVals members v) p
  | _ => 0

/-- _compute_residual_scenarios of engine.py: inner merge of consumption
and renewables on utc_datetime, one residual column per matched member,
then the ensemble statistics columns when at least one member matched. -/
def computeResidualScenarios (consumption ren_ens : Frame) (nMembers : ℕ) : Frame :=
  if consumption.isEmpty then Frame.emptyDF
  else if ren_ens.isEmpty then Frame.emptyDF
  else
    let merged := Frame.mergeInner consumption ren_ens
    if merged.isEmpty then Frame.emptyDF
    else
      let members := memberList nMembers merged.cols
      ⟨merged.tsDtype,
       members.map Col.residual ++ (if members.isEmpty then [] else statCols),
       merged.rows.map (fun r => (r.1, residualRowVal members r.2))⟩

/-- compute_forecast_delta of engine.py: the two fetched frames with
their per-row ensemble mean, merged inner on utc_datetime (the suffixed
ens_mean columns are renamed old_mean and new_mean on return; the
embedding names them oldMean and newMean from the start), then
delta = new - old and delta_pct = delta / (old + 0.1) * 100. -/
def computeForecastDelta (old_df new_df : Frame) : Frame :=
  if old_df.isEmpty || new_df.isEmpty then Frame.emptyDF
  else
    let comparison :=
      Frame.mergeInner (old_df.selectAs Col.ensMean Col.oldMean)
        (new_df.selectAs Col.ensMean Col.newMean)
    if comparison.isEmpty then Frame.emptyDF
    else
      ⟨comparison.tsDtype, comparison.cols ++ [Col.delta, Col.deltaPct],
       comparison.rows.map (fun r =>
         (r.1, fun c =>
           match c with
           | Col.delta => r.2 Col.newMean - r.2 Col.oldMean
           | Col.deltaPct =>
               (r.2 Col.newMean - r.2 Col.oldMean) / (r.2 Col.oldMean + 1 / 10) * 100
           | _ => r.2 c))⟩

/-- The tail of compute_residual_load_delta after the wind and solar
delta columns have been assembled: the early return on an empty result,
the sort by timestamp, and the two derived columns
residual_delta = -(wind_delta + solar_delta) and
residual_delta_pct = residual_delta / 100 * 100. -/
def rlDeltaFinish (result : Frame) : Frame :=
  if result.isEmpty then Frame.emptyDF
  else
    let sorted := result.sortRows
    ⟨sorted.tsDtype, sorted.cols ++ [Col.residualDelta, Col.residualDeltaPct],
     sorted.rows.map (fun r =>
       (r.1, fun c =>
         match c with
         | Col.residualDelta => -(r.2 Col.windDelta + r.2 Col.solarDelta)
         | Col.residualDeltaPct =>
             -(r.2 Col.windDelta + r.2 Col.solarDelta) / 100 * 100
         | _ => r.2 c))⟩

/-- compute_residual_load_delta of engine.py, as a function of the four
fetched frames that feed its two compute_forecast_delta calls: the wind
and solar delta columns assembled by an outer merge on utc_datetime with
a missing side filled with zero (or by the constant zero column when one
whole element is empty), then finished by rlDeltaFinish. -/
def computeResidualLoadDelta (windOld windNew solarOld solarNew : Frame) : Frame :=
  let windD := computeForecastDelta windOld windNew
  let solarD := computeForecastDelta solarOld solarNew
  if windD.isEmpty && solarD.isEmpty then Frame.emptyDF
  else
    rlDeltaFinish
      (if !windD.isEmpty && !solarD.isEmpty then
        Frame.mergeOuterFill (windD.selectAs Col.delta Col.windDelta)
          (solarD.selectAs Col.delta Col.solarDelta)
      else if !windD.isEmpty then
        (windD.selectAs Col.delta Col.windDelta).withConstCol Col.solarDelta 0
      else
        (solarD.selectAs Col.delta Col.solarDelta).withConstCol Col.windDelta 0)

/-! ### The forecast store client (metdesk_db.py) -/

/-- One long-format row of the member query:
(utc_datetime, member, value). -/
structure LongRow where
  t : ℤ
  member : ℕ
  value : ℚ

/-- pivot_table with index utc_datetime, columns member, values value and
aggfunc first, followed by the rename of member m to the zero-padded
column ens_m, pd.to_datetime with utc=True on the timestamps, and the
sort by utc_datetime.  A cell with no matching long row is NaN in pandas;
the embedding uses zero there (no claim reaches such a cell). -/
def pivotFirst (data : List LongRow) : Frame :=
  ⟨some Dtype.datetimeUTC,
   (((data.map LongRow.member).dedup).insertionSort (· ≤ ·)).map Col.ens,
   (((data.map LongRow.t).dedup).insertionSort (· ≤ ·)).map (fun t =>
     (t, fun c =>
       match c with
       | Col.ens i =>
           match data.find? (fun d => d.t = t ∧ d.member = i) with
           | some d => d.value
           | none => 0
       | _ => 0))⟩

/-- get_ensemble_forecasts of metdesk_db.py.  issue is the explicit issue
argument, latest the result of the latest-issue lookup (performed only
when issue is absent), data the long rows the member query returns, with
none standing for a query error.  The function returns pd.DataFrame() --
a frame with no columns -- when no issue could be resolved, when the
query errored, or when it matched no rows; otherwise the pivoted wide
frame. -/
def get_ensemble_forecasts (issue latest : Option ℤ)
    (data : Option (List LongRow)) : Frame :=
  match (match issue with | some t => some t | none => latest) with
  | none => Frame.emptyDF
  | some _ =>
    match data with
    | none => Frame.emptyDF
    | some d => if d.isEmpty then Frame.emptyDF else pivotFirst d

/-- Rename of every non-timestamp column c to wind_c. -/
def Frame.renameWind (f : Frame) : Frame :=
  ⟨f.tsDtype, f.cols.map Col.wind,
   f.rows.map (fun r => (r.1, fun c => match c with | Col.wind c0 => r.2 c0 | _ => 0))⟩

/-- Rename of every non-timestamp column c to solar_c. -/
def Frame.renameSolar (f : Frame) : Frame :=
  ⟨f.tsDtype, f.cols.map Col.solar,
   f.rows.map (fun r => (r.1, fun c => match c with | Col.solar c0 => r.2 c0 | _ => 0))⟩

/-- get_renewable_ensembles of metdesk_db.py, as a function of the wind
and solar frames its two get_ensemble_forecasts calls return: both empty
gives pd.DataFrame(); one side empty returns the other side renamed, with
an early return BEFORE the total renewables summation loop; otherwise the
outer merge with zero fill and one total_ren_ens_i column per member
index present on both sides. -/
def get_renewable_ensembles (wind solar : Frame) (nMembers : ℕ) : Frame :=
  if wind.isEmpty && solar.isEmpty then Frame.emptyDF
  else
    let wind_renamed := if !wind.isEmpty then wind.renameWind else Frame.emptyDF
    let solar_renamed := if !solar.isEmpty then solar.renameSolar else Frame.emptyDF
    if wind_renamed.isEmpty then solar_renamed
    else if solar_renamed.isEmpty then wind_renamed
    else
      let df := Frame.mergeOuterFill wind_renamed solar_renamed
      let totals := (List.range' 1 nMembers).filter (fun i =>
        Col.wind (Col.ens i) ∈ df.cols ∧ Col.solar (Col.ens i) ∈ df.cols)
      ⟨df.tsDtype, df.cols ++ totals.map Col.totalRen,
       df.rows.map (fun r =>
         (r.1, fun c =>
           match c with
           | Col.totalRen i =>
               if i ∈ totals then r.2 (Col.wind (Col.ens i)) + r.2 (Col.solar (Col.ens i))
               else r.2 (Col.totalRen i)
           | _ => r.2 c))⟩

/-! ### The engine state machine (ResidualLoadEngine.update) -/

/-- The configured member count of each model (AVAILABLE_MODELS of
config.py; the source raises KeyError on an unknown key, the embedding
returns 0, a value no claim reaches). -/
def nMembersOf : String → ℕ
  | "eceps" => 50
  | "ec46" => 99
  | "gfsens" => 30
  | "ecaifsens" => 50
  | _ => 0

/-- COUNTRY of config.py. -/
def defaultCountry : String := "FR"

/-- The run metadata record stored with each successful update. -/
structure Metadata where
  model : String
  n_members : ℕ
  issue : Option ℤ
  countries : List String

/-- The scenario bundle stored in self.scenarios by a successful update. -/
structure Bundle where
  residual_scenarios : Frame
  consumption : Frame
  renewables_ens : Frame
  metadata : Metadata

/-- The mutable engine fields the claims concern.  self.scenarios starts
as an empty dict, modelled none; last_update (a wall-clock time) and the
CSV snapshot are not modelled. -/
structure EngineState where
  current_model : Option String
  scenarios : Option Bundle

/-- The store, abstracted: the renewable-ensemble frame per (uppercased)
country, the consumption frame per (lowercased) country, and the latest
wind issue of the first country used for the metadata record. -/
structure FetchEnv where
  ren : String → Frame
  consData : String → Frame
  latest_issue : Option ℤ

/-- Default country substitution of update: an absent or empty country
list becomes the single configured country. -/
def effectiveCountries (countries : List String) : List String :=
  if countries.isEmpty then [defaultCountry] else countries

/-- The cross-country aggregation of the renewable frames: a left fold of
DataFrame.add with fill_value 0 over the non-empty fetched frames. -/
def aggRen : List Frame → Frame
  | [] => Frame.emptyDF
  | f :: fs => fs.foldl Frame.addFill f

/-- pd.concat of the non-empty consumption frames followed by
groupby(utc_datetime).sum() on consumption_mw and the sort by
utc_datetime. -/
def groupConsumption (l : List Frame) : Frame :=
  ⟨(match l with | [] => none | f :: _ => f.tsDtype),
   [Col.consumption_mw],
   ((((l.flatMap Frame.rows).map Prod.fst).dedup).insertionSort (· ≤ ·)).map (fun t =>
     (t, fun c =>
       if c = Col.consumption_mw then
         (((l.flatMap Frame.rows).filter (fun r => r.1 = t)).map
           (fun r => r.2 Col.consumption_mw)).sum
       else 0))⟩

/-- update of engine.py.  current_model is overwritten first; then the
renewable frames are fetched per country and the update aborts with an
empty bundle (the empty dict, modelled none) when every fetch came back
empty; then likewise for consumption; otherwise the residual scenarios
are computed and the whole bundle replaces self.scenarios.  The return
value is paired with the new engine state. -/
def update (env : FetchEnv) (st : EngineState) (model : String) (issue : Option ℤ)
    (countries : List String) : EngineState × Option Bundle :=
  let st1 : EngineState := { st with current_model := some model }
  let cs := effectiveCountries countries
  let renList := (cs.map (fun c => env.ren c.toUpper)).filter (fun f => !f.isEmpty)
  if renList.isEmpty then (st1, none)
  else
    let ren_ens := aggRen renList
    let consList := (cs.map (fun c => env.consData c.toLower)).filter (fun f => !f.isEmpty)
    if consList.isEmpty then (st1, none)
    else
      let consumption := groupConsumption consList
      if consumption.isEmpty then (st1, none)
      else
        let residual := computeResidualScenarios consumption ren_ens (nMembersOf model)
        let actualIssue := match issue with | some t => some t | none => env.latest_issue
        let bundle : Bundle := ⟨residual, consumption, ren_ens,
          ⟨model, nMembersOf model, actualIssue, cs⟩⟩
        (⟨some model, some bundle⟩, some bundle)

/-! ### Concrete tables for the worked scenarios of the specification -/

/-- A row with the given timestamp and column values, zero elsewhere. -/
def mkRow (t : ℤ) (pairs : List (Col × ℚ)) : Row :=
  (t, fun c => (((pairs.find? (fun p => p.1 = c)).map Prod.snd).getD 0))

/-- Consumption [100, 110, 120, 130] at T0..T3. -/
def consEx : Frame :=
  ⟨some Dtype.datetimeUTC, [Col.consumption_mw],
   [mkRow 0 [(Col.consumption_mw, 100)], mkRow 1 [(Col.consumption_mw, 110)],
    mkRow 2 [(Col.consumption_mw, 120)], mkRow 3 [(Col.consumption_mw, 130)]]⟩

/-- Two-member renewables ensemble with constant totals 10 and 20. -/
def renEx : Frame :=
  ⟨some Dtype.datetimeUTC, [Col.totalRen 1, Col.totalRen 2],
   [mkRow 0 [(Col.totalRen 1, 10), (Col.totalRen 2, 20)],
    mkRow 1 [(Col.totalRen 1, 10), (Col.totalRen 2, 20)],
    mkRow 2 [(Col.totalRen 1, 10), (Col.totalRen 2, 20)],
    mkRow 3 [(Col.totalRen 1, 10), (Col.totalRen 2, 20)]]⟩

/-- A single-row frame carrying an ensemble mean, as
get_ensemble_by_issue_and_time returns it. -/
def meanFrame (t : ℤ) (v : ℚ) : Frame :=
  ⟨some Dtype.datetimeUTC, [Col.ensMean], [(t, fun c => if c = Col.ensMean then v else 0)]⟩

/-! ### Helper lemmas -/

lemma floor_half : ⌊(1 : ℚ) / 2⌋ = 0 := by norm_num

lemma ceil_half : ⌈(1 : ℚ) / 2⌉ = 1 := by
  rw [Int.ceil_eq_iff]
  constructor <;> norm_num

lemma interp_pair (a b : ℚ) : interp [a, b] (1 / 2) = (a + b) / 2 := by
  rw [interp, floor_half, ceil_half]
  simp
  ring

/-- The percentile at level 50 of exactly two values is their mean: the
virtual index is 1/2 and linear interpolation lands halfway between the
two order statistics. -/
lemma quantile_pair_eq_mean (x y : ℚ) : quantile [x, y] 50 = nmean [x, y] := by
  have harg : ((50 : ℕ) : ℚ) * ((([x, y] : List ℚ).length : ℚ) - 1) / 100 = 1 / 2 := by
    norm_num
  have e1 : quantile [x, y] 50 = interp ([x, y].insertionSort (· ≤ ·)) (1 / 2) := by
    rw [quantile, harg]
    simp
  have e2 : nmean [x, y] = (x + y) / 2 := by
    simp [nmean]
  rcases le_total x y with h | h
  · have hs : ([x, y].insertionSort (· ≤ ·)) = [x, y] := by
      simp [List.insertionSort, List.orderedInsert, h]
    rw [e1, hs, interp_pair, e2]
  · have hs : ([x, y].insertionSort (· ≤ ·)) = [y, x] := by
      rcases eq_or_lt_of_le h with h1 | h1
      · simp [List.insertionSort, List.orderedInsert, h1]
      · simp [List.insertionSort, List.orderedInsert, not_le.mpr h1]
    rw [e1, hs, interp_pair, e2]
    ring

lemma mem_mergeInner_rows {a b : Frame} {r : Row} (h : r ∈ (Frame.mergeInner a b).rows) :
    ∃ ra ∈ a.rows, ∃ rb ∈ b.rows, rb.1 = ra.1 ∧
      r = (ra.1, fun c => if c ∈ a.cols then ra.2 c else rb.2 c) := by
  simp only [Frame.mergeInner, List.mem_flatMap, List.mem_map, List.mem_filter,
    decide_eq_true_eq] at h
  obtain ⟨ra, hra, rb, ⟨hrb, hkey⟩, hr⟩ := h
  exact ⟨ra, hra, rb, hrb, hkey, hr.symm⟩

lemma mergeInner_key_mem {a b : Frame} {r : Row} (h : r ∈ (Frame.mergeInner a b).rows) :
    r.1 ∈ Frame.keys a ∧ r.1 ∈ Frame.keys b := by
  obtain ⟨ra, hra, rb, hrb, hk, hr⟩ := mem_mergeInner_rows h
  subst hr
  refine ⟨List.mem_map.mpr ⟨ra, hra, rfl⟩, List.mem_map.mpr ⟨rb, hrb, hk⟩⟩

lemma sum_map_le_length {α : Type} (l : List α) (f : α → ℕ) (h : ∀ x ∈ l, f x ≤ 1) :
    (l.map f).sum ≤ l.length := by
  induction l with
  | nil => simp
  | cons x xs ih =>
    simp only [List.map_cons, List.sum_cons, List.length_cons]
    have h1 := h x (List.mem_cons_self _ _)
    have h2 := ih (fun y hy => h y (List.mem_cons_of_mem _ hy))
    omega

lemma filter_key_length_le_one (rows : List Row) (hnd : (rows.map Prod.fst).Nodup) (t : ℤ) :
    (rows.filter (fun rb => rb.1 = t)).length ≤ 1 := by
  have h1 : (rows.filter (fun rb => rb.1 = t)).length
      = List.countP (fun rb => rb.1 = t) rows := (List.countP_eq_length_filter _ _).symm
  have h2 : List.countP (fun rb => rb.1 = t) rows
      = List.countP (fun z => z = t) (rows.map Prod.fst) := by
    rw [List.countP_map]; rfl
  have h3 : List.countP (fun z => z = t) (rows.map Prod.fst)
      = List.count t (rows.map Prod.fst) := by
    rw [List.count_eq_countP]
    apply List.countP_congr
    intro x _
    simp
  rw [h1, h2, h3]
  exact List.nodup_iff_count_le_one.mp hnd t

lemma sum_filter_counts_le (A : List ℤ) (B : List Row) (hA : A.Nodup) :
    (A.map (fun t => (B.filter (fun rb => rb.1 = t)).length)).sum ≤ B.length := by
  induction A generalizing B with
  | nil => simp
  | cons t ts ih =>
    simp only [List.map_cons, List.sum_cons]
    obtain ⟨ht, hts⟩ := List.nodup_cons.mp hA
    have hlen := List.length_eq_length_filter_add (l := B) (fun rb => rb.1 = t)
    have hcong : ∀ u ∈ ts, (B.filter (fun rb => rb.1 = u)).length
        = ((B.filter (fun rb => !(decide (rb.1 = t)))).filter (fun rb => rb.1 = u)).length := by
      intro u hu
      have hut : u ≠ t := fun e => ht (e ▸ hu)
      rw [List.filter_filter]
      congr 1
      apply List.filter_congr
      intro rb _
      by_cases hh : rb.1 = u
      · simp [hh, hut]
      · simp [hh]
    have hsum : (ts.map (fun u => (B.filter (fun rb => rb.1 = u)).length)).sum
        = (ts.map (fun u =>
            ((B.filter (fun rb => !(decide (rb.1 = t)))).filter
              (fun rb => rb.1 = u)).length)).sum := by
      exact congrArg List.sum (List.map_congr_left hcong)
    rw [hsum]
    have hih := ih (B.filter (fun rb => !(decide (rb.1 = t)))) hts
    omega

lemma mergeInner_length_eq (a b : Frame) :
    (Frame.mergeInner a b).rows.length
      = ((Frame.keys a).map (fun t => (b.rows.filter (fun rb => rb.1 = t)).length)).sum := by
  simp only [Frame.mergeInner, List.length_flatMap, Frame.keys, List.map_map]
  exact congrArg List.sum (List.map_congr_left (fun ra _ => by simp))

lemma mergeInner_length_le_left (a b : Frame) (hb : (Frame.keys b).Nodup) :
    (Frame.mergeInner a b).rows.length ≤ a.rows.length := by
  rw [mergeInner_length_eq]
  calc ((Frame.keys a).map (fun t => (b.rows.filter (fun rb => rb.1 = t)).length)).sum
      ≤ (Frame.keys a).length :=
        sum_map_le_length _ _ (fun t _ => filter_key_length_le_one b.rows hb t)
    _ = a.rows.length := List.length_map _ _

lemma mergeInner_length_le_right (a b : Frame) (ha : (Frame.keys a).Nodup) :
    (Frame.mergeInner a b).rows.length ≤ b.rows.length := by
  rw [mergeInner_length_eq]
  exact sum_filter_counts_le (Frame.keys a) b.rows ha

lemma sorted_getD_le (s : List ℚ) (hs : s.Sorted (· ≤ ·)) {i j : ℕ} (hij : i ≤ j)
    (hj : j < s.length) : s.getD i 0 ≤ s.getD j 0 := by
  have hi : i < s.length := Nat.lt_of_le_of_lt hij hj
  have e1 : s.getD i 0 = s.get ⟨i, hi⟩ :=
    (List.getD_eq_getElem s 0 hi).trans (List.get_eq_getElem s ⟨i, hi⟩).symm
  have e2 : s.getD j 0 = s.get ⟨j, hj⟩ :=
    (List.getD_eq_getElem s 0 hj).trans (List.get_eq_getElem s ⟨j, hj⟩).symm
  rw [e1, e2]
  exact hs.rel_get_of_le (Fin.mk_le_mk.mpr hij)

lemma interp_bounds (s : List ℚ) (hs : s.Sorted (· ≤ ·)) (hne : s ≠ [])
    (h : ℚ) (h0 : 0 ≤ h) (hub : h ≤ (s.length : ℚ) - 1) :
    s.getD (Int.toNat ⌊h⌋) 0 ≤ interp s h ∧ interp s h ≤ s.getD (Int.toNat ⌈h⌉) 0 := by
  have hn1 : 1 ≤ s.length := List.length_pos.mpr hne
  have hf0 : 0 ≤ ⌊h⌋ := Int.le_floor.mpr (by exact_mod_cast h0)
  have hcle : ⌈h⌉ ≤ (s.length : ℤ) - 1 := by
    rw [Int.ceil_le]
    push_cast
    linarith
  have hfc := Int.floor_le_ceil h
  have hH : Int.toNat ⌈h⌉ < s.length := by omega
  have hL : Int.toNat ⌊h⌋ ≤ Int.toNat ⌈h⌉ := by omega
  have hcast : ((Int.toNat ⌊h⌋ : ℕ) : ℚ) = ((⌊h⌋ : ℤ) : ℚ) := by
    exact_mod_cast Int.toNat_of_nonneg hf0
  have hg0 : 0 ≤ h - (Int.toNat ⌊h⌋ : ℚ) := by
    rw [hcast]
    have := Int.floor_le h
    linarith
  have hg1 : h - (Int.toNat ⌊h⌋ : ℚ) ≤ 1 := by
    rw [hcast]
    have := Int.lt_floor_add_one h
    push_cast at this ⊢
    linarith
  have hmono : s.getD (Int.toNat ⌊h⌋) 0 ≤ s.getD (Int.toNat ⌈h⌉) 0 :=
    sorted_getD_le s hs hL hH
  constructor
  · unfold interp
    nlinarith [mul_nonneg hg0 (sub_nonneg.mpr hmono)]
  · unfold interp
    nlinarith [mul_nonneg (by linarith : (0 : ℚ) ≤ 1 - (h - (Int.toNat ⌊h⌋ : ℚ)))
      (sub_nonneg.mpr hmono)]

lemma interp_mono (s : List ℚ) (hs : s.Sorted (· ≤ ·)) (hne : s ≠ [])
    {h₁ h₂ : ℚ} (h0 : 0 ≤ h₁) (h12 : h₁ ≤ h₂) (hub : h₂ ≤ (s.length : ℚ) - 1) :
    interp s h₁ ≤ interp s h₂ := by
  have h0₂ : 0 ≤ h₂ := le_trans h0 h12
  have hub₁ : h₁ ≤ (s.length : ℚ) - 1 := le_trans h12 hub
  have hn1 : 1 ≤ s.length := List.length_pos.mpr hne
  have hf1 : 0 ≤ ⌊h₁⌋ := Int.le_floor.mpr (by exact_mod_cast h0)
  have hf2 : 0 ≤ ⌊h₂⌋ := Int.le_floor.mpr (by exact_mod_cast h0₂)
  have hcle2 : ⌈h₂⌉ ≤ (s.length : ℤ) - 1 := by
    rw [Int.ceil_le]
    push_cast
    linarith
  rcases lt_or_eq_of_le (Int.floor_mono h12) with hlt | heq
  · -- the two virtual indices fall in different unit segments
    have b1 := (interp_bounds s hs hne h₁ h0 hub₁).2
    have b2 := (interp_bounds s hs hne h₂ h0₂ hub).1
    have hH2 : Int.toNat ⌊h₂⌋ < s.length := by
      have := Int.floor_le_ceil h₂
      omega
    have hc1 : ⌈h₁⌉ ≤ ⌊h₂⌋ := le_trans (Int.ceil_le_floor_add_one h₁) (by omega)
    have hmid : s.getD (Int.toNat ⌈h₁⌉) 0 ≤ s.getD (Int.toNat ⌊h₂⌋) 0 :=
      sorted_getD_le s hs (by omega) hH2
    linarith
  · by_cases hint : h₁ = ((⌊h₁⌋ : ℤ) : ℚ)
    · -- h₁ sits exactly on an order statistic
      have b2 := (interp_bounds s hs hne h₂ h0₂ hub).1
      have hcast1 : ((Int.toNat ⌊h₁⌋ : ℕ) : ℚ) = ((⌊h₁⌋ : ℤ) : ℚ) := by
        exact_mod_cast Int.toNat_of_nonneg hf1
      have he1 : interp s h₁ = s.getD (Int.toNat ⌊h₁⌋) 0 := by
        unfold interp
        rw [show h₁ - ((Int.toNat ⌊h₁⌋ : ℕ) : ℚ) = 0 from by
          rw [hcast1, hint, Int.floor_intCast]
          ring]
        ring
      rw [he1, heq]
      exact b2
    · -- both indices lie strictly inside the same unit segment
      have hflt1 : ((⌊h₁⌋ : ℤ) : ℚ) < h₁ := lt_of_le_of_ne (Int.floor_le h₁) fun e => hint e.symm
      have hc1 : ⌈h₁⌉ = ⌊h₁⌋ + 1 := by
        refine le_antisymm (Int.ceil_le_floor_add_one h₁) ?_
        have hlc : ⌊h₁⌋ < ⌈h₁⌉ := by
          have hch := Int.le_ceil h₁
          exact_mod_cast lt_of_lt_of_le hflt1 hch
        omega
      have hflt2 : ((⌊h₂⌋ : ℤ) : ℚ) < h₂ := by
        rw [← heq]
        linarith
      have hc2 : ⌈h₂⌉ = ⌊h₂⌋ + 1 := by
        refine le_antisymm (Int.ceil_le_floor_add_one h₂) ?_
        have hlc : ⌊h₂⌋ < ⌈h₂⌉ := by
          have hch := Int.le_ceil h₂
          exact_mod_cast lt_of_lt_of_le hflt2 hch
        omega
      have hH2 : Int.toNat ⌈h₂⌉ < s.length := by omega
      have hL2 : Int.toNat ⌊h₂⌋ ≤ Int.toNat ⌈h₂⌉ := by
        have := Int.floor_le_ceil h₂
        omega
      have hmono : s.getD (Int.toNat ⌊h₂⌋) 0 ≤ s.getD (Int.toNat ⌈h₂⌉) 0 :=
        sorted_getD_le s hs hL2 hH2
      unfold interp
      rw [heq, hc1, ← heq, heq, hc2]
      rw [hc2] at hmono
      apply add_le_add_left
      exact mul_le_mul_of_nonneg_right (by linarith) (by linarith)

/-- Monotonicity of numpy nanpercentile in the percentile level. -/
lemma quantile_mono (xs : List ℚ) (hne : xs ≠ []) {p q : ℕ} (hpq : p ≤ q) (hq : q ≤ 100) :
    quantile xs p ≤ quantile xs q := by
  have hxe : xs.isEmpty = false := by
    cases xs with
    | nil => exact absurd rfl hne
    | cons x l => rfl
  rw [quantile, quantile, hxe]
  simp only [Bool.false_eq_true, if_false]
  have hlen : (xs.insertionSort (· ≤ ·)).length = xs.length := List.length_insertionSort _ _
  have hn1 : 1 ≤ xs.length := List.length_pos.mpr hne
  have hnn : (0 : ℚ) ≤ (xs.length : ℚ) - 1 := by
    have : (1 : ℚ) ≤ (xs.length : ℚ) := by exact_mod_cast hn1
    linarith
  apply interp_mono
  · exact List.sorted_insertionSort _ _
  · intro e
    have : (xs.insertionSort (· ≤ ·)).length = 0 := by rw [e]; rfl
    omega
  · positivity
  · have hc : ((p : ℕ) : ℚ) ≤ ((q : ℕ) : ℚ) := by exact_mod_cast hpq
    apply div_le_div_of_nonneg_right ?_ (by norm_num)
    exact mul_le_mul_of_nonneg_right hc hnn
  · rw [hlen]
    rw [div_le_iff₀ (by norm_num : (0 : ℚ) < 100)]
    have hcq : ((q : ℕ) : ℚ) ≤ 100 := by exact_mod_cast hq
    nlinarith

lemma dRow_eq_get (f : Frame) (j : ℕ) (hj : j < f.rows.length) :
    dRow f j = f.rows.get ⟨j, hj⟩ := by
  unfold dRow
  rw [List.getD_eq_getElem f.rows (0, fun _ => 0) hj]
  rfl

lemma dRow_mem (f : Frame) (j : ℕ) (hj : j < f.rows.length) : dRow f j ∈ f.rows := by
  rw [dRow_eq_get f j hj]
  exact List.get_mem _ _ _

/-! ### Claim theorems -/

/-- C7: for every pair of input tables (whose timestamps are unique per
row, as the data model requires), the inner-join residual computation
returns at most min(consumption row count, renewables row count) rows,
and every output row's timestamp occurs in both inputs. -/
theorem inner_join_bounds (a b : Frame) (n : ℕ)
    (ha : (Frame.keys a).Nodup) (hb : (Frame.keys b).Nodup) :
    (computeResidualScenarios a b n).rows.length ≤ min a.rows.length b.rows.length
    ∧ ∀ j, j < (computeResidualScenarios a b n).rows.length →
        (dRow (computeResidualScenarios a b n) j).1 ∈ Frame.keys a
        ∧ (dRow (computeResidualScenarios a b n) j).1 ∈ Frame.keys b := by
  simp only [computeResidualScenarios]
  by_cases h1 : a.isEmpty
  · simp [h1, Frame.emptyDF]
  · by_cases h2 : b.isEmpty
    · simp [h1, h2, Frame.emptyDF]
    · by_cases h3 : (Frame.mergeInner a b).isEmpty
      · simp [h1, h2, h3, Frame.emptyDF]
      · simp only [h1, h2, h3, Bool.false_eq_true, if_false]
        constructor
        · rw [List.length_map]
          exact le_min (mergeInner_length_le_left a b hb) (mergeInner_length_le_right a b ha)
        · intro j hj
          have hmem := dRow_mem ⟨(Frame.mergeInner a b).tsDtype,
            (memberList n (Frame.mergeInner a b).cols).map Col.residual ++
              (if (memberList n (Frame.mergeInner a b).cols).isEmpty then [] else statCols),
            (Frame.mergeInner a b).rows.map (fun r =>
              (r.1, residualRowVal (memberList n (Frame.mergeInner a b).cols) r.2))⟩ j hj
          obtain ⟨rm, hrm, heq⟩ := List.mem_map.mp hmem
          have hkey : (dRow ⟨(Frame.mergeInner a b).tsDtype,
              (memberList n (Frame.mergeInner a b).cols).map Col.residual ++
                (if (memberList n (Frame.mergeInner a b).cols).isEmpty then [] else statCols),
              (Frame.mergeInner a b).rows.map (fun r =>
                (r.1, residualRowVal (memberList n (Frame.mergeInner a b).cols) r.2))⟩ j).1
              = rm.1 := by
            rw [← heq]
          rw [hkey]
          exact mergeInner_key_mem hrm

/-- C6: in every row of a residual-scenario output the percentile columns
are monotonically non-decreasing in the percentile level; the 21 columns
ens_P0 .. ens_P100 are present whenever the output has any member
column. -/
theorem percentile_columns_monotone (a b : Frame) (n k₁ k₂ : ℕ)
    (hk : k₁ ≤ k₂) (hk2 : k₂ ≤ 20)
    (j : ℕ) (hj : j < (computeResidualScenarios a b n).rows.length) :
    ((computeResidualScenarios a b n).cols ≠ [] →
        Col.ensP (5 * k₁) ∈ (computeResidualScenarios a b n).cols
        ∧ Col.ensP (5 * k₂) ∈ (computeResidualScenarios a b n).cols)
    ∧ (dRow (computeResidualScenarios a b n) j).2 (Col.ensP (5 * k₁))
        ≤ (dRow (computeResidualScenarios a b n) j).2 (Col.ensP (5 * k₂)) := by
  revert hj
  simp only [computeResidualScenarios]
  by_cases h1 : a.isEmpty
  · simp [h1, Frame.emptyDF]
  · by_cases h2 : b.isEmpty
    · simp [h1, h2, Frame.emptyDF]
    · by_cases h3 : (Frame.mergeInner a b).isEmpty
      · simp [h1, h2, h3, Frame.emptyDF]
      · simp only [h1, h2, h3, Bool.false_eq_true, if_false]
        intro hj
        constructor
        · intro hne
          by_cases hm : (memberList n (Frame.mergeInner a b).cols).isEmpty
          · exact absurd (by simp [hm, List.isEmpty_iff.mp hm]) hne
          · have hmem : ∀ k, k ≤ 20 → Col.ensP (5 * k) ∈
                (memberList n (Frame.mergeInner a b).cols).map Col.residual ++
                  (if (memberList n (Frame.mergeInner a b).cols).isEmpty then []
                    else statCols) := by
              intro k hkk
              apply List.mem_append_right
              simp only [hm, Bool.false_eq_true, if_false, statCols]
              apply List.mem_append_right
              exact List.mem_map.mpr ⟨k, List.mem_range.mpr (by omega), rfl⟩
            exact ⟨hmem k₁ (le_trans hk hk2), hmem k₂ hk2⟩
        · have hmem := dRow_mem ⟨(Frame.mergeInner a b).tsDtype,
            (memberList n (Frame.mergeInner a b).cols).map Col.residual ++
              (if (memberList n (Frame.mergeInner a b).cols).isEmpty then [] else statCols),
            (Frame.mergeInner a b).rows.map (fun r =>
              (r.1, residualRowVal (memberList n (Frame.mergeInner a b).cols) r.2))⟩ j hj
          obtain ⟨rm, hrm, heq⟩ := List.mem_map.mp hmem
          rw [← heq]
          simp only [residualRowVal]
          rcases he : residualVals (memberList n (Frame.mergeInner a b).cols) rm.2 with _ | ⟨x, l⟩
          · simp [quantile]
          · rw [← he]
            apply quantile_mono
            · rw [he]
              exact List.cons_ne_nil _ _
            · omega
            · omega

theorem inner_join_bounds_witness :
    (Frame.keys consEx).Nodup ∧ (Frame.keys renEx).Nodup
    ∧ ((computeResidualScenarios consEx renEx 50).rows.length
          ≤ min consEx.rows.length renEx.rows.length
        ∧ ∀ j, j < (computeResidualScenarios consEx renEx 50).rows.length →
            (dRow (computeResidualScenarios consEx renEx 50) j).1 ∈ Frame.keys consEx
            ∧ (dRow (computeResidualScenarios consEx renEx 50) j).1 ∈ Frame.keys renEx) :=
  ⟨by decide, by decide, inner_join_bounds consEx renEx 50 (by decide) (by decide)⟩

theorem percentile_columns_monotone_witness :
    (2 ≤ 10 ∧ 10 ≤ 20 ∧ 0 < (computeResidualScenarios consEx renEx 50).rows.length)
    ∧ (((computeResidualScenarios consEx renEx 50).cols ≠ [] →
          Col.ensP (5 * 2) ∈ (computeResidualScenarios consEx renEx 50).cols
          ∧ Col.ensP (5 * 10) ∈ (computeResidualScenarios consEx renEx 50).cols)
        ∧ (dRow (computeResidualScenarios consEx renEx 50) 0).2 (Col.ensP (5 * 2))
            ≤ (dRow (computeResidualScenarios consEx renEx 50) 0).2 (Col.ensP (5 * 10))) :=
  ⟨⟨by decide, by decide, by decide⟩,
    percentile_columns_monotone consEx renEx 50 2 10 (by decide) (by decide) 0 (by decide)⟩

/-- C1: the residual computation emits, for each member index i in 1..N
whose total renewables column exists, a residual column equal row-wise to
consumption_mw minus that member's total; on the worked example
(consumption [100,110,120,130], two members with totals 10 and 20) the
residual columns, ens_mean and ens_P50 take the values the specification
lists. -/
theorem residual_member_columns (cons ren : Frame) (n i : ℕ)
    (hcols : cons.cols = [Col.consumption_mw])
    (h1 : 1 ≤ i) (hn : i ≤ n) (hmem : Col.totalRen i ∈ ren.cols) :
    ((computeResidualScenarios cons ren n).rows ≠ [] →
        Col.residual i ∈ (computeResidualScenarios cons ren n).cols)
    ∧ (∀ j, j < (computeResidualScenarios cons ren n).rows.length →
        ∃ rc ∈ cons.rows, ∃ rr ∈ ren.rows,
          rc.1 = (dRow (computeResidualScenarios cons ren n) j).1
          ∧ rr.1 = (dRow (computeResidualScenarios cons ren n) j).1
          ∧ (dRow (computeResidualScenarios cons ren n) j).2 (Col.residual i)
              = rc.2 Col.consumption_mw - rr.2 (Col.totalRen i))
    ∧ (computeResidualScenarios consEx renEx 50).rows.map (fun r => r.2 (Col.residual 1))
        = [90, 100, 110, 120]
    ∧ (computeResidualScenarios consEx renEx 50).rows.map (fun r => r.2 (Col.residual 2))
        = [80, 90, 100, 110]
    ∧ (computeResidualScenarios consEx renEx 50).rows.map (fun r => r.2 Col.ensMean)
        = [85, 95, 105, 115]
    ∧ (computeResidualScenarios consEx renEx 50).rows.map (fun r => r.2 (Col.ensP 50))
        = [85, 95, 105, 115] := by
  have himem : i ∈ memberList n (Frame.mergeInner cons ren).cols := by
    simp only [memberList, Frame.mergeInner, hcols, List.mem_filter, decide_eq_true_eq]
    refine ⟨List.mem_range'_1.mpr (by omega), ?_⟩
    exact List.mem_append_right _ hmem
  refine ⟨?_, ?_, ?_, ?_, ?_, ?_⟩
  · -- column presence
    simp only [computeResidualScenarios]
    by_cases h1e : cons.isEmpty
    · simp [h1e, Frame.emptyDF]
    · by_cases h2e : ren.isEmpty
      · simp [h1e, h2e, Frame.emptyDF]
      · by_cases h3e : (Frame.mergeInner cons ren).isEmpty
        · simp [h1e, h2e, h3e, Frame.emptyDF]
        · simp only [h1e, h2e, h3e, Bool.false_eq_true, if_false]
          intro _
          exact List.mem_append_left _ (List.mem_map.mpr ⟨i, himem, rfl⟩)
  · -- row values
    simp only [computeResidualScenarios]
    by_cases h1e : cons.isEmpty
    · simp [h1e, Frame.emptyDF]
    · by_cases h2e : ren.isEmpty
      · simp [h1e, h2e, Frame.emptyDF]
      · by_cases h3e : (Frame.mergeInner cons ren).isEmpty
        · simp [h1e, h2e, h3e, Frame.emptyDF]
        · simp only [h1e, h2e, h3e, Bool.false_eq_true, if_false]
          intro j hj
          have hmemr := dRow_mem ⟨(Frame.mergeInner cons ren).tsDtype,
            (memberList n (Frame.mergeInner cons ren).cols).map Col.residual ++
              (if (memberList n (Frame.mergeInner cons ren).cols).isEmpty then []
                else statCols),
            (Frame.mergeInner cons ren).rows.map (fun r =>
              (r.1, residualRowVal (memberList n (Frame.mergeInner cons ren).cols) r.2))⟩ j hj
          obtain ⟨rm, hrm, heq⟩ := List.mem_map.mp hmemr
          obtain ⟨ra, hra, rb, hrb, hk, hrm2⟩ := mem_mergeInner_rows hrm
          refine ⟨ra, hra, rb, hrb, ?_, ?_, ?_⟩
          · rw [← heq, hrm2]
          · rw [← heq, hrm2]
            exact hk
          · rw [← heq]
            simp only [residualRowVal, himem, if_pos]
            rw [hrm2]
            simp only [hcols]
            have e1 : Col.consumption_mw ∈ [Col.consumption_mw] := List.mem_singleton_self _
            have e2 : Col.totalRen i ∉ [Col.consumption_mw] := by simp
            rw [if_pos e1, if_neg e2]
  · simp [computeResidualScenarios, Frame.mergeInner, Frame.isEmpty, consEx, renEx,
      mkRow, memberList, residualRowVal, residualVals, List.range', List.find?,
      List.flatMap, Frame.emptyDF]
    norm_num
  · simp [computeResidualScenarios, Frame.mergeInner, Frame.isEmpty, consEx, renEx,
      mkRow, memberList, residualRowVal, residualVals, List.range', List.find?,
      List.flatMap, Frame.emptyDF]
    norm_num
  · simp [computeResidualScenarios, Frame.mergeInner, Frame.isEmpty, consEx, renEx,
      mkRow, memberList, residualRowVal, residualVals, nmean, List.range', List.find?,
      List.flatMap, Frame.emptyDF]
    norm_num
  · simp [computeResidualScenarios, Frame.mergeInner, Frame.isEmpty, consEx, renEx,
      mkRow, memberList, residualRowVal, residualVals, quantile_pair_eq_mean, nmean,
      List.range', List.find?, List.flatMap, Frame.emptyDF]
    norm_num

theorem residual_member_columns_witness :
    (consEx.cols = [Col.consumption_mw] ∧ 1 ≤ 1 ∧ 1 ≤ 50
        ∧ Col.totalRen 1 ∈ renEx.cols
        ∧ (computeResidualScenarios consEx renEx 50).rows ≠ [])
    ∧ Col.residual 1 ∈ (computeResidualScenarios consEx renEx 50).cols :=
  ⟨⟨rfl, by decide, by decide, by decide,
      List.ne_nil_of_length_pos (by decide)⟩,
    (residual_member_columns consEx renEx 50 1 rfl (by decide) (by decide) (by decide)).1
      (List.ne_nil_of_length_pos (by decide))⟩

lemma mem_selectAs_rows {f : Frame} {src target : Col} {r : Row}
    (h : r ∈ (f.selectAs src target).rows) :
    ∃ r0 ∈ f.rows, r = (r0.1, fun c => if c = target then r0.2 src else 0) := by
  simp only [Frame.selectAs, List.mem_map] at h
  obtain ⟨r0, h0, he⟩ := h
  exact ⟨r0, h0, he.symm⟩

/-- C4: every row of compute_forecast_delta carries the old and new
ensemble means of the matched input rows at its timestamp, with
delta = new mean - old mean and delta_pct = delta / (old mean + 0.1) * 100;
at old mean 0 and delta 5 the percentage is exactly 5000, with no
division by zero (the denominator is the constant-offset 0.1). -/
theorem forecast_delta_formula (old_df new_df : Frame)
    (j : ℕ) (hj : j < (computeForecastDelta old_df new_df).rows.length) :
    ∃ ro ∈ old_df.rows, ∃ rn ∈ new_df.rows,
      ro.1 = (dRow (computeForecastDelta old_df new_df) j).1
      ∧ rn.1 = (dRow (computeForecastDelta old_df new_df) j).1
      ∧ (dRow (computeForecastDelta old_df new_df) j).2 Col.oldMean = ro.2 Col.ensMean
      ∧ (dRow (computeForecastDelta old_df new_df) j).2 Col.newMean = rn.2 Col.ensMean
      ∧ (dRow (computeForecastDelta old_df new_df) j).2 Col.delta
          = rn.2 Col.ensMean - ro.2 Col.ensMean
      ∧ (dRow (computeForecastDelta old_df new_df) j).2 Col.deltaPct
          = (dRow (computeForecastDelta old_df new_df) j).2 Col.delta
              / (ro.2 Col.ensMean + 1 / 10) * 100
      ∧ (ro.2 Col.ensMean = 0 →
          (dRow (computeForecastDelta old_df new_df) j).2 Col.delta = 5 →
          (dRow (computeForecastDelta old_df new_df) j).2 Col.deltaPct = 5000) := by
  revert hj
  simp only [computeForecastDelta]
  by_cases h0 : (old_df.isEmpty || new_df.isEmpty) = true
  · simp [h0, Frame.emptyDF]
  · simp only [h0, Bool.false_eq_true, if_false]
    by_cases hc : (Frame.mergeInner (old_df.selectAs Col.ensMean Col.oldMean)
        (new_df.selectAs Col.ensMean Col.newMean)).isEmpty
    · simp [hc, Frame.emptyDF]
    · simp only [hc, Bool.false_eq_true, if_false]
      intro hj
      have hmemr := dRow_mem ⟨(Frame.mergeInner (old_df.selectAs Col.ensMean Col.oldMean)
          (new_df.selectAs Col.ensMean Col.newMean)).tsDtype,
        (Frame.mergeInner (old_df.selectAs Col.ensMean Col.oldMean)
          (new_df.selectAs Col.ensMean Col.newMean)).cols ++ [Col.delta, Col.deltaPct],
        (Frame.mergeInner (old_df.selectAs Col.ensMean Col.oldMean)
          (new_df.selectAs Col.ensMean Col.newMean)).rows.map (fun r =>
          (r.1, fun c =>
            match c with
            | Col.delta => r.2 Col.newMean - r.2 Col.oldMean
            | Col.deltaPct =>
                (r.2 Col.newMean - r.2 Col.oldMean) / (r.2 Col.oldMean + 1 / 10) * 100
            | _ => r.2 c))⟩ j hj
      obtain ⟨rm, hrm, heq⟩ := List.mem_map.mp hmemr
      obtain ⟨ra, hra, rb, hrb, hk, hrm2⟩ := mem_mergeInner_rows hrm
      obtain ⟨ro, hro, hae⟩ := mem_selectAs_rows hra
      obtain ⟨rn, hrn, hbe⟩ := mem_selectAs_rows hrb
      have hvo : rm.2 Col.oldMean = ro.2 Col.ensMean := by
        rw [hrm2, hae]
        simp [Frame.selectAs]
      have hvn : rm.2 Col.newMean = rn.2 Col.ensMean := by
        rw [hrm2, hbe]
        simp [Frame.selectAs]
      refine ⟨ro, hro, rn, hrn, ?_, ?_, ?_, ?_, ?_, ?_, ?_⟩
      · rw [← heq, hrm2, hae]
      · rw [← heq, hrm2]
        rw [hbe] at hk
        exact hk
      · rw [← heq]
        exact hvo
      · rw [← heq]
        exact hvn
      · rw [← heq]
        simp only []
        rw [hvo, hvn]
      · rw [← heq]
        simp only []
        rw [hvo]
      · intro hz hd
        rw [← heq] at hd ⊢
        simp only [] at hd ⊢
        rw [hvo, hvn, hz] at hd ⊢
        rw [hd]
        norm_num

theorem forecast_delta_formula_witness :
    (0 < (computeForecastDelta (meanFrame 0 0) (meanFrame 0 5)).rows.length)
    ∧ (∃ ro ∈ (meanFrame 0 0).rows, ∃ rn ∈ (meanFrame 0 5).rows,
        ro.1 = (dRow (computeForecastDelta (meanFrame 0 0) (meanFrame 0 5)) 0).1
        ∧ rn.1 = (dRow (computeForecastDelta (meanFrame 0 0) (meanFrame 0 5)) 0).1
        ∧ (dRow (computeForecastDelta (meanFrame 0 0) (meanFrame 0 5)) 0).2 Col.oldMean
            = ro.2 Col.ensMean
        ∧ (dRow (computeForecastDelta (meanFrame 0 0) (meanFrame 0 5)) 0).2 Col.newMean
            = rn.2 Col.ensMean
        ∧ (dRow (computeForecastDelta (meanFrame 0 0) (meanFrame 0 5)) 0).2 Col.delta
            = rn.2 Col.ensMean - ro.2 Col.ensMean
        ∧ (dRow (computeForecastDelta (meanFrame 0 0) (meanFrame 0 5)) 0).2 Col.deltaPct
            = (dRow (computeForecastDelta (meanFrame 0 0) (meanFrame 0 5)) 0).2 Col.delta
                / (ro.2 Col.ensMean + 1 / 10) * 100
        ∧ (ro.2 Col.ensMean = 0 →
            (dRow (computeForecastDelta (meanFrame 0 0) (meanFrame 0 5)) 0).2 Col.delta = 5 →
            (dRow (computeForecastDelta (meanFrame 0 0) (meanFrame 0 5)) 0).2 Col.deltaPct
              = 5000))
    ∧ (computeForecastDelta (meanFrame 0 0) (meanFrame 0 5)).rows.map
        (fun r => r.2 Col.deltaPct) = [5000] := by
  refine ⟨by decide, forecast_delta_formula (meanFrame 0 0) (meanFrame 0 5) 0 (by decide), ?_⟩
  simp [computeForecastDelta, Frame.mergeInner, Frame.selectAs, Frame.isEmpty, meanFrame,
    List.flatMap, List.find?, Frame.emptyDF]
  norm_num

lemma mem_sortRows {f : Frame} {r : Row} (h : r ∈ f.sortRows.rows) : r ∈ f.rows :=
  (List.Perm.mem_iff (List.perm_insertionSort _ _)).mp h

lemma mem_mergeOuterFill_vals {a b : Frame} {r : Row}
    (h : r ∈ (Frame.mergeOuterFill a b).rows) (c : Col) :
    r.2 c = if c ∈ a.cols then ((lookupRow a.rows r.1).map (fun v => v c)).getD 0
            else ((lookupRow b.rows r.1).map (fun v => v c)).getD 0 := by
  simp only [Frame.mergeOuterFill, List.mem_map] at h
  obtain ⟨t, _, he⟩ := h
  rw [← he]

lemma mem_withConstCol_vals {f : Frame} {c0 : Col} {v : ℚ} {r : Row}
    (h : r ∈ (f.withConstCol c0 v).rows) :
    ∃ r0 ∈ f.rows, r.1 = r0.1 ∧ ∀ c, r.2 c = if c = c0 then v else r0.2 c := by
  simp only [Frame.withConstCol, List.mem_map] at h
  obtain ⟨r0, h0, he⟩ := h
  exact ⟨r0, h0, by rw [← he], fun c => by rw [← he]⟩

lemma lookupRow_selectAs (f : Frame) (src target : Col) (t : ℤ) :
    lookupRow (f.selectAs src target).rows t
      = (lookupRow f.rows t).map (fun v c => if c = target then v src else 0) := by
  unfold lookupRow Frame.selectAs
  simp only [List.find?_map, Option.map_map]
  rfl

/-- What reaches a row of the final stage of compute_residual_load_delta:
some row of the assembled result table with the same timestamp, the wind
and solar deltas copied, the residual delta their negated sum, and the
percentage column equal to the residual delta divided by 100 then
multiplied by 100. -/
lemma rlDeltaFinish_spec (R : Frame) (j : ℕ) (hj : j < (rlDeltaFinish R).rows.length) :
    ∃ r0 ∈ R.rows,
      (dRow (rlDeltaFinish R) j).1 = r0.1
      ∧ (dRow (rlDeltaFinish R) j).2 Col.windDelta = r0.2 Col.windDelta
      ∧ (dRow (rlDeltaFinish R) j).2 Col.solarDelta = r0.2 Col.solarDelta
      ∧ (dRow (rlDeltaFinish R) j).2 Col.residualDelta
          = -(r0.2 Col.windDelta + r0.2 Col.solarDelta)
      ∧ (dRow (rlDeltaFinish R) j).2 Col.residualDeltaPct
          = (dRow (rlDeltaFinish R) j).2 Col.residualDelta := by
  revert hj
  simp only [rlDeltaFinish]
  by_cases hR : R.isEmpty
  · simp [hR, Frame.emptyDF]
  · simp only [hR, Bool.false_eq_true, if_false]
    intro hj
    have hmemr := dRow_mem ⟨R.sortRows.tsDtype,
      R.sortRows.cols ++ [Col.residualDelta, Col.residualDeltaPct],
      R.sortRows.rows.map (fun r =>
        (r.1, fun c =>
          match c with
          | Col.residualDelta => -(r.2 Col.windDelta + r.2 Col.solarDelta)
          | Col.residualDeltaPct =>
              -(r.2 Col.windDelta + r.2 Col.solarDelta) / 100 * 100
          | _ => r.2 c))⟩ j hj
    obtain ⟨rm, hrm, heq⟩ := List.mem_map.mp hmemr
    refine ⟨rm, mem_sortRows hrm, ?_, ?_, ?_, ?_, ?_⟩
    · rw [← heq]
    · rw [← heq]
    · rw [← heq]
    · rw [← heq]
    · rw [← heq]
      simp only []
      rw [div_mul_cancel₀]
      norm_num

/-- C10: residual_delta_pct equals residual_delta on every output row of
compute_residual_load_delta: dividing by 100 and multiplying by 100 is
the identity in exact arithmetic, so the column carries no information
beyond residual_delta. -/
theorem residual_delta_pct_identity (wo wn so sn : Frame) (j : ℕ)
    (hj : j < (computeResidualLoadDelta wo wn so sn).rows.length) :
    (dRow (computeResidualLoadDelta wo wn so sn) j).2 Col.residualDeltaPct
      = (dRow (computeResidualLoadDelta wo wn so sn) j).2 Col.residualDelta := by
  revert hj
  simp only [computeResidualLoadDelta]
  by_cases h0 : ((computeForecastDelta wo wn).isEmpty
      && (computeForecastDelta so sn).isEmpty) = true
  · simp [h0, Frame.emptyDF]
  · simp only [h0, Bool.false_eq_true, if_false]
    intro hj
    obtain ⟨r0, _, _, _, _, _, hpct⟩ := rlDeltaFinish_spec _ j hj
    exact hpct

theorem residual_delta_pct_identity_witness :
    (0 < (computeResidualLoadDelta (meanFrame 0 0) (meanFrame 0 3)
        (meanFrame 0 0) (meanFrame 0 2)).rows.length)
    ∧ (dRow (computeResidualLoadDelta (meanFrame 0 0) (meanFrame 0 3)
          (meanFrame 0 0) (meanFrame 0 2)) 0).2 Col.residualDeltaPct
        = (dRow (computeResidualLoadDelta (meanFrame 0 0) (meanFrame 0 3)
            (meanFrame 0 0) (meanFrame 0 2)) 0).2 Col.residualDelta :=
  ⟨by decide, residual_delta_pct_identity (meanFrame 0 0) (meanFrame 0 3)
    (meanFrame 0 0) (meanFrame 0 2) 0 (by decide)⟩

/-- C5: the wind and solar delta tables are outer-joined on timestamp
with a missing side defaulted to zero (a wholly missing element becomes
the constant zero column), and every output row satisfies
residual_delta = -(wind_delta + solar_delta). -/
theorem residual_load_delta_sign (wo wn so sn : Frame) (j : ℕ)
    (hj : j < (computeResidualLoadDelta wo wn so sn).rows.length) :
    (dRow (computeResidualLoadDelta wo wn so sn) j).2 Col.residualDelta
        = -((dRow (computeResidualLoadDelta wo wn so sn) j).2 Col.windDelta
            + (dRow (computeResidualLoadDelta wo wn so sn) j).2 Col.solarDelta)
    ∧ ((computeForecastDelta so sn).isEmpty = true →
        (dRow (computeResidualLoadDelta wo wn so sn) j).2 Col.solarDelta = 0)
    ∧ ((computeForecastDelta wo wn).isEmpty = true →
        (dRow (computeResidualLoadDelta wo wn so sn) j).2 Col.windDelta = 0)
    ∧ ((computeForecastDelta wo wn).isEmpty = false →
        (computeForecastDelta so sn).isEmpty = false →
        (dRow (computeResidualLoadDelta wo wn so sn) j).2 Col.windDelta
            = ((lookupRow (computeForecastDelta wo wn).rows
                (dRow (computeResidualLoadDelta wo wn so sn) j).1).map
                  (fun v => v Col.delta)).getD 0
          ∧ (dRow (computeResidualLoadDelta wo wn so sn) j).2 Col.solarDelta
            = ((lookupRow (computeForecastDelta so sn).rows
                (dRow (computeResidualLoadDelta wo wn so sn) j).1).map
                  (fun v => v Col.delta)).getD 0) := by
  revert hj
  simp only [computeResidualLoadDelta]
  by_cases hw : (computeForecastDelta wo wn).isEmpty
  all_goals by_cases hs : (computeForecastDelta so sn).isEmpty
  · simp [hw, hs, Frame.emptyDF]
  · -- wind empty, solar present: solar side with the constant zero wind column
    have hs' : (computeForecastDelta so sn).isEmpty = false := by simpa using hs
    simp only [hw, hs', Bool.true_and, Bool.and_false, Bool.false_eq_true, if_false,
      Bool.not_true, Bool.not_false, Bool.false_and, Bool.and_true, if_true]
    intro hj
    obtain ⟨r0, hr0, hkey, hwv, hsv, hres, _⟩ := rlDeltaFinish_spec _ j hj
    obtain ⟨r1, hr1, hk1, hv1⟩ := mem_withConstCol_vals hr0
    refine ⟨by rw [hres, hwv, hsv], ?_, ?_, ?_⟩
    · intro h
      exact absurd h (by simp)
    · intro _
      rw [hwv, hv1 Col.windDelta, if_pos rfl]
    · intro h _
      exact absurd h (by simp)
  · -- wind present, solar empty: wind side with the constant zero solar column
    have hw' : (computeForecastDelta wo wn).isEmpty = false := by simpa using hw
    simp only [hw', hs, Bool.false_and, Bool.and_true, Bool.false_eq_true, if_false,
      Bool.not_true, Bool.not_false, Bool.and_false, Bool.true_and, if_true]
    intro hj
    obtain ⟨r0, hr0, hkey, hwv, hsv, hres, _⟩ := rlDeltaFinish_spec _ j hj
    obtain ⟨r1, hr1, hk1, hv1⟩ := mem_withConstCol_vals hr0
    refine ⟨by rw [hres, hwv, hsv], ?_, ?_, ?_⟩
    · intro _
      rw [hsv, hv1 Col.solarDelta, if_pos rfl]
    · intro h
      exact absurd h (by simp)
    · intro _ h
      exact absurd h (by simp)
  · -- both present: outer merge with zero fill
    have hw' : (computeForecastDelta wo wn).isEmpty = false := by simpa using hw
    have hs' : (computeForecastDelta so sn).isEmpty = false := by simpa using hs
    simp only [hw', hs', Bool.false_and, Bool.false_eq_true, if_false,
      Bool.not_false, Bool.true_and, Bool.and_self, if_true]
    intro hj
    obtain ⟨r0, hr0, hkey, hwv, hsv, hres, _⟩ := rlDeltaFinish_spec _ j hj
    have hvals := mem_mergeOuterFill_vals hr0
    refine ⟨by rw [hres, hwv, hsv], ?_, ?_, ?_⟩
    · intro h
      exact absurd h (by simp)
    · intro h
      exact absurd h (by simp)
    · intro _ _
      constructor
      · rw [hwv, hvals Col.windDelta, if_pos (by simp [Frame.selectAs]),
          lookupRow_selectAs, hkey]
        cases lookupRow (computeForecastDelta wo wn).rows r0.1 <;> simp
      · rw [hsv, hvals Col.solarDelta, if_neg (by simp [Frame.selectAs]),
          lookupRow_selectAs, hkey]
        cases lookupRow (computeForecastDelta so sn).rows r0.1 <;> simp

theorem residual_load_delta_sign_witness :
    (0 < (computeResidualLoadDelta (meanFrame 0 0) (meanFrame 0 3)
        (meanFrame 0 0) (meanFrame 0 2)).rows.length)
    ∧ ((dRow (computeResidualLoadDelta (meanFrame 0 0) (meanFrame 0 3)
          (meanFrame 0 0) (meanFrame 0 2)) 0).2 Col.residualDelta
        = -((dRow (computeResidualLoadDelta (meanFrame 0 0) (meanFrame 0 3)
              (meanFrame 0 0) (meanFrame 0 2)) 0).2 Col.windDelta
            + (dRow (computeResidualLoadDelta (meanFrame 0 0) (meanFrame 0 3)
                (meanFrame 0 0) (meanFrame 0 2)) 0).2 Col.solarDelta))
    ∧ (computeResidualLoadDelta (meanFrame 0 0) (meanFrame 0 3)
        (meanFrame 0 0) (meanFrame 0 2)).rows.map (fun r => r.2 Col.residualDelta) = [-5]
    ∧ (computeResidualLoadDelta (meanFrame 0 0) (meanFrame 0 3)
        Frame.emptyDF Frame.emptyDF).rows.map (fun r => r.2 Col.solarDelta) = [0]
    ∧ (computeResidualLoadDelta (meanFrame 0 0) (meanFrame 0 3)
        Frame.emptyDF Frame.emptyDF).rows.map (fun r => r.2 Col.residualDelta) = [-3] := by
  refine ⟨by decide, (residual_load_delta_sign (meanFrame 0 0) (meanFrame 0 3)
    (meanFrame 0 0) (meanFrame 0 2) 0 (by decide)).1, ?_, ?_, ?_⟩
  · simp [computeResidualLoadDelta, rlDeltaFinish, computeForecastDelta, Frame.mergeInner,
      Frame.mergeOuterFill, Frame.selectAs, Frame.withConstCol, Frame.sortRows, Frame.isEmpty,
      Frame.keys, lookupRow, meanFrame, Frame.emptyDF, List.flatMap, List.find?,
      List.insertionSort, List.orderedInsert]
    norm_num
  · simp [computeResidualLoadDelta, rlDeltaFinish, computeForecastDelta, Frame.mergeInner,
      Frame.mergeOuterFill, Frame.selectAs, Frame.withConstCol, Frame.sortRows, Frame.isEmpty,
      Frame.keys, lookupRow, meanFrame, Frame.emptyDF, List.flatMap, List.find?,
      List.insertionSort, List.orderedInsert]
  · simp [computeResidualLoadDelta, rlDeltaFinish, computeForecastDelta, Frame.mergeInner,
      Frame.mergeOuterFill, Frame.selectAs, Frame.withConstCol, Frame.sortRows, Frame.isEmpty,
      Frame.keys, lookupRow, meanFrame, Frame.emptyDF, List.flatMap, List.find?,
      List.insertionSort, List.orderedInsert]

/-- A store in which every fetch comes back empty. -/
def envEmpty : FetchEnv := ⟨fun _ => Frame.emptyDF, fun _ => Frame.emptyDF, none⟩

/-- A previously stored scenario bundle, recorded for the eceps model. -/
def bundle0 : Bundle := ⟨Frame.emptyDF, Frame.emptyDF, Frame.emptyDF, ⟨"eceps", 50, none, ["FR"]⟩⟩

/-- An engine that has already published bundle0. -/
def st0 : EngineState := ⟨some "eceps", some bundle0⟩

/-- Both abort paths of update: when every renewables fetch or every
consumption fetch is empty, the call returns the empty bundle and the
only state change is the already-performed current_model assignment. -/
lemma update_aborts (env : FetchEnv) (st : EngineState) (model : String) (issue : Option ℤ)
    (countries : List String)
    (h : (∀ c ∈ effectiveCountries countries, (env.ren c.toUpper).isEmpty = true)
       ∨ (∀ c ∈ effectiveCountries countries, (env.consData c.toLower).isEmpty = true)) :
    update env st model issue countries = ({ st with current_model := some model }, none) := by
  simp only [update]
  rcases h with h | h
  · have hren : ((effectiveCountries countries).map (fun c => env.ren c.toUpper)).filter
        (fun f => !f.isEmpty) = [] := by
      rw [List.filter_eq_nil_iff]
      intro f hf
      obtain ⟨c, hc, he⟩ := List.mem_map.mp hf
      rw [← he]
      simp [h c hc]
    simp [hren]
  · have hcons : ((effectiveCountries countries).map (fun c => env.consData c.toLower)).filter
        (fun f => !f.isEmpty) = [] := by
      rw [List.filter_eq_nil_iff]
      intro f hf
      obtain ⟨c, hc, he⟩ := List.mem_map.mp hf
      rw [← he]
      simp [h c hc]
    by_cases hren : (((effectiveCountries countries).map (fun c => env.ren c.toUpper)).filter
        (fun f => !f.isEmpty)).isEmpty
    · simp [hren]
    · simp [hren, hcons]

/-- C2: an update whose fetches return empty tables for all requested
countries (for renewables, or for consumption) returns an empty bundle
and leaves the previously stored scenario bundle, metadata included,
unchanged. -/
theorem update_empty_fetch_preserves_scenarios (env : FetchEnv) (st : EngineState)
    (model : String) (issue : Option ℤ) (countries : List String)
    (h : (∀ c ∈ effectiveCountries countries, (env.ren c.toUpper).isEmpty = true)
       ∨ (∀ c ∈ effectiveCountries countries, (env.consData c.toLower).isEmpty = true)) :
    (update env st model issue countries).2 = none
    ∧ (update env st model issue countries).1.scenarios = st.scenarios := by
  rw [update_aborts env st model issue countries h]
  exact ⟨rfl, rfl⟩

theorem update_empty_fetch_preserves_scenarios_witness :
    (∀ c ∈ effectiveCountries [], (envEmpty.ren c.toUpper).isEmpty = true)
    ∧ (update envEmpty st0 "gfsens" none []).2 = none
    ∧ (update envEmpty st0 "gfsens" none []).1.scenarios = st0.scenarios :=
  ⟨by decide,
    (update_empty_fetch_preserves_scenarios envEmpty st0 "gfsens" none []
      (Or.inl (by decide))).1,
    (update_empty_fetch_preserves_scenarios envEmpty st0 "gfsens" none []
      (Or.inl (by decide))).2⟩

/-- C9: a failed update has nonetheless already overwritten
current_model, so the engine's current_model can disagree with the model
recorded in the retained scenario bundle's metadata. -/
theorem update_failed_overwrites_current_model (env : FetchEnv) (st : EngineState)
    (model : String) (issue : Option ℤ) (countries : List String) (b : Bundle)
    (h : (∀ c ∈ effectiveCountries countries, (env.ren c.toUpper).isEmpty = true)
       ∨ (∀ c ∈ effectiveCountries countries, (env.consData c.toLower).isEmpty = true))
    (hs : st.scenarios = some b) (hm : b.metadata.model ≠ model) :
    (update env st model issue countries).1.current_model = some model
    ∧ (update env st model issue countries).1.scenarios = some b
    ∧ (update env st model issue countries).1.current_model
        ≠ some b.metadata.model := by
  rw [update_aborts env st model issue countries h]
  exact ⟨rfl, hs, fun e => hm (Option.some.inj e).symm⟩

theorem update_failed_overwrites_current_model_witness :
    (st0.scenarios = some bundle0 ∧ bundle0.metadata.model ≠ "gfsens")
    ∧ (update envEmpty st0 "gfsens" none []).1.current_model = some "gfsens"
    ∧ (update envEmpty st0 "gfsens" none []).1.scenarios = some bundle0
    ∧ (update envEmpty st0 "gfsens" none []).1.current_model
        ≠ some bundle0.metadata.model :=
  ⟨⟨rfl, by decide⟩,
    update_failed_overwrites_current_model envEmpty st0 "gfsens" none [] bundle0
      (Or.inl (by decide)) rfl (by decide)⟩

/-- A solar-only ensemble fetch result: one timestamp, two members. -/
def solarSideEx : Frame :=
  ⟨some Dtype.datetimeUTC, [Col.ens 1, Col.ens 2],
   [mkRow 0 [(Col.ens 1, 5), (Col.ens 2, 7)]]⟩

/-- A one-row consumption table overlapping solarSideEx. -/
def consSingleEx : Frame :=
  ⟨some Dtype.datetimeUTC, [Col.consumption_mw], [mkRow 0 [(Col.consumption_mw, 100)]]⟩

/-- C3 (the code at the failing input): with wind empty and solar
present, get_renewable_ensembles returns the renamed solar frame without
any total renewables column -- the summation loop sits after the early
return -- so the residual computation finds no member and emits a result
with no columns at all, though the timestamp rows survive. -/
theorem partial_source_loses_members :
    (get_renewable_ensembles Frame.emptyDF solarSideEx 50).cols
        = [Col.solar (Col.ens 1), Col.solar (Col.ens 2)]
    ∧ (∀ i, Col.totalRen i ∉ (get_renewable_ensembles Frame.emptyDF solarSideEx 50).cols)
    ∧ (get_renewable_ensembles Frame.emptyDF solarSideEx 50).rows.length = 1
    ∧ (computeResidualScenarios consSingleEx
        (get_renewable_ensembles Frame.emptyDF solarSideEx 50) 50).cols = []
    ∧ (computeResidualScenarios consSingleEx
        (get_renewable_ensembles Frame.emptyDF solarSideEx 50) 50).rows.length = 1 := by
  have hcols : (get_renewable_ensembles Frame.emptyDF solarSideEx 50).cols
      = [Col.solar (Col.ens 1), Col.solar (Col.ens 2)] := by decide
  refine ⟨hcols, ?_, by decide, by decide, by decide⟩
  intro i
  rw [hcols]
  simp

/-- C8 counterexample: when no issue is found the ensemble-member fetch
returns pd.DataFrame(), which has no utc_datetime column at all, so the
timestamp column is not present as a timezone-aware instant. -/
theorem ensemble_fetch_empty_no_ts_column :
    (get_ensemble_forecasts none none (some [])).tsDtype ≠ some Dtype.datetimeUTC := by
  decide

/-- C8 as amended: whenever the ensemble-member fetch finds no issue,
errors, or matches no rows, it returns an empty frame (never an absent
value) that carries no columns -- in particular no typed timestamp
column. -/
theorem ensemble_fetch_empty_frame (issue latest : Option ℤ) (data : Option (List LongRow))
    (h : (issue = none ∧ latest = none) ∨ data = some [] ∨ data = none) :
    get_ensemble_forecasts issue latest data = Frame.emptyDF
    ∧ (get_ensemble_forecasts issue latest data).cols = []
    ∧ (get_ensemble_forecasts issue latest data).tsDtype = none := by
  have he : get_ensemble_forecasts issue latest data = Frame.emptyDF := by
    rcases h with ⟨h1, h2⟩ | h | h
    · subst h1
      subst h2
      rfl
    · subst h
      cases issue <;> cases latest <;> rfl
    · subst h
      cases issue <;> cases latest <;> rfl
  exact ⟨he, by rw [he]; rfl, by rw [he]; rfl⟩

theorem ensemble_fetch_empty_frame_witness :
    ((none : Option ℤ) = none ∧ (none : Option ℤ) = none)
    ∧ (get_ensemble_forecasts none none (some []) = Frame.emptyDF
        ∧ (get_ensemble_forecasts none none (some [])).cols = []
        ∧ (get_ensemble_forecasts none none (some [])).tsDtype = none) :=
  ⟨⟨rfl, rfl⟩, ensemble_fetch_empty_frame none none (some []) (Or.inl ⟨rfl, rfl⟩)⟩

end ResidualLoad
